import Mathlib

/-!
Verification of the WebSocket framing codec (`src/ws/frame.rs`).

The codec is embedded shallowly: payloads and wire buffers are `List Nat`
(each entry one byte), machine integers are `Nat` with explicit masking
where the code truncates, and the fallible/streaming `Frame::parse` is a
pure function from a buffer to an outcome together with the buffer it
leaves behind (mirroring the in-place mutation of the Rust `BytesMut`).
-/

set_option maxHeartbeats 1600000
set_option maxRecDepth 40000

namespace WsFrame

/-- Modelled from the spec: the opcode tag set of `ws/proto.rs` (not under
`src/`): Continuation, Text, Binary, Close, Ping, Pong, plus the internal
`Bad` sentinel used transiently during decode for an unrecognized 4-bit
code. -/
inductive OpCode where
  | Continue
  | Text
  | Binary
  | Close
  | Ping
  | Pong
  | Bad
  deriving DecidableEq, Repr

/-- Modelled from the spec: the `u8 -> OpCode` conversion of `ws/proto.rs`
(not under `src/`): only `{0,1,2,8,9,10}` map to the six real opcodes, any
other value decodes to the internal `Bad` sentinel. -/
def OpCode.fromU8 (n : Nat) : OpCode :=
  if n = 0 then .Continue
  else if n = 1 then .Text
  else if n = 2 then .Binary
  else if n = 8 then .Close
  else if n = 9 then .Ping
  else if n = 10 then .Pong
  else .Bad

/-- Modelled from the spec: the `OpCode -> u8` conversion of `ws/proto.rs`
(not under `src/`). The spec fixes the wire values `{0,1,2,8,9,10}`; it
gives no encoding for the internal-only `Bad` sentinel, which is therefore
excluded by hypothesis wherever the value matters (the placeholder 8 is
never relied upon). -/
def OpCode.toU8 : OpCode → Nat
  | .Continue => 0
  | .Text => 1
  | .Binary => 2
  | .Close => 8
  | .Ping => 9
  | .Pong => 10
  | .Bad => 8

/-- Modelled from the spec: `CloseCode` of `ws/proto.rs` (not under
`src/`): the standard numeric close reasons (only `Normal` is needed
here), the sentinel `Empty` meaning "no code present", and an
`Other(u16)` fallback. -/
inductive CloseCode where
  | Normal
  | Empty
  | Other (code : Nat)
  deriving DecidableEq, Repr

/-- Modelled from the spec: the `CloseCode -> u16` conversion of
`ws/proto.rs` (not under `src/`); `Normal` is the numeric code 1000
(the example in the spec: 1000 big-endian = bytes `3, 232`).  The value for
`Empty` is irrelevant: `Frame::close` discards the encoded code bytes for
`Empty`. -/
def CloseCode.toU16 : CloseCode → Nat
  | .Normal => 1000
  | .Empty => 0
  | .Other c => c

/-- Modelled from the spec: `apply_mask` of `ws/mask.rs` (not under
`src/`): `buffer[i] ^= key[i mod 4]` for all `i` (§4.3 of the spec). -/
def apply_mask (buf : List Nat) (mask : Fin 4 → Nat) : List Nat :=
  buf.mapIdx fun i b => b ^^^ mask ⟨i % 4, Nat.mod_lt i (by decide)⟩

/-- Model of `byteorder::NetworkEndian::read_uint(buf, nbytes)`: read the
first `nbytes` bytes of `bs` as a big-endian unsigned integer. -/
def readUintBE (nbytes : Nat) (bs : List Nat) : Nat :=
  (bs.take nbytes).foldl (fun acc b => acc * 256 + b) 0

/-- Model of `byteorder::BigEndian::write_uXX`: the `n`-byte big-endian
representation of `v` (truncating to `n` bytes, as the fixed-width write
does). -/
def beBytes : Nat → Nat → List Nat
  | 0, _ => []
  | n + 1, v => beBytes n (v / 256) ++ [v % 256]

/-- The decoded frame value (`struct Frame` in `frame.rs`); the `Binary`
payload is a byte list. -/
structure Frame where
  finished : Bool
  rsv1 : Bool
  rsv2 : Bool
  rsv3 : Bool
  opcode : OpCode
  payload : List Nat
  deriving DecidableEq, Repr

/-- Model of `impl Default for Frame` (`frame.rs` lines 223-234): a finished Close
frame with empty payload. -/
def Frame.default : Frame :=
  { finished := true
    rsv1 := false
    rsv2 := false
    rsv3 := false
    opcode := .Close
    payload := [] }

/-- The fatal decode errors of `Frame::parse` (in the source these are
`io::Error` values distinguished by message text). -/
inductive ParseError where
  | UnmaskedFrame
  | MaskedFrame
  | InvalidOpcode (raw : Nat)
  | OversizedControlFrame (length : Nat)
  deriving DecidableEq, Repr

/-- Outcome of `Frame::parse`: `none` is `Ok(None)` (need more data),
`frame` is `Ok(Some(frame))`, `err` is `Err(..)`. -/
inductive ParseOutcome where
  | none
  | frame (f : Frame)
  | err (e : ParseError)
  deriving DecidableEq, Repr

/-- Length resolution step of `Frame::parse` (`frame.rs` lines 77-97).
Returns `Option.none` when the extension bytes are not yet present
(`Ok(None)` in the source), otherwise the resolved payload `length` and
the index `idx` of the first byte after the length field. -/
def resolvedLength (buf : List Nat) : Option (Nat × Nat) :=
  let second := buf.getD 1 0
  let size := buf.length - 2
  let len := second &&& 0x7F
  if len = 126 then
    if size < 2 then Option.none
    else Option.some (readUintBE 2 (buf.drop 2), 4)
  else if len = 127 then
    if size < 8 then Option.none
    else Option.some (readUintBE 8 (buf.drop 2), 10)
  else Option.some (len, 2)

/-- Final stage of `Frame::parse` (`frame.rs` lines 113-161): completion
check, removal of the frame bytes, opcode validation, control-frame length
policy, unmasking.  `first` is byte 0 of the frame, `length` the resolved
payload length, `idx` the offset of the payload in `buf`, `mask` the mask
key when one was read. -/
def parseBody (buf : List Nat) (first length idx : Nat)
    (mask : Option (Fin 4 → Nat)) : ParseOutcome × List Nat :=
  if buf.length - idx < length then (.none, buf)
  else
    let data := (buf.drop idx).take length
    let rest := (buf.drop idx).drop length
    let opcode := OpCode.fromU8 (first &&& 0x0F)
    if opcode = .Bad then
      (.err (.InvalidOpcode (first &&& 0x0F)), rest)
    else if (opcode = .Ping ∨ opcode = .Pong) ∧ 125 < length then
      (.err (.OversizedControlFrame length), rest)
    else if opcode = .Close ∧ 125 < length then
      (.frame Frame.default, rest)
    else
      let data := match mask with
        | Option.some m => apply_mask data m
        | Option.none => data
      (.frame { finished := (first &&& 0x80) != 0
                rsv1 := (first &&& 0x40) != 0
                rsv2 := (first &&& 0x20) != 0
                rsv3 := (first &&& 0x10) != 0
                opcode := opcode
                payload := data }, rest)

/-- Mask-key reading stage of `Frame::parse` (`frame.rs` lines 99-111):
a server reads the 4-byte mask key at `idx0` (needing 4 more buffered
bytes, else `Ok(None)`); a client reads none. -/
def parseMask (buf : List Nat) (server : Bool) (first length idx0 : Nat) :
    ParseOutcome × List Nat :=
  if server then
    if buf.length - idx0 < 4 then (.none, buf)
    else parseBody buf first length (idx0 + 4)
      (Option.some fun j => (buf.drop idx0).getD j 0)
  else parseBody buf first length idx0 Option.none

/-- Model of `Frame::parse` (`frame.rs` lines 51-161).  The Rust function mutates
the `BytesMut` buffer in place and returns `Result<Option<Frame>, Error>`;
here it returns the outcome paired with the buffer as the call leaves it.
The sequential stages of the source are split into `resolvedLength`,
`parseMask` and `parseBody`. -/
def parse (buf : List Nat) (server : Bool) : ParseOutcome × List Nat :=
  if buf.length < 2 then (.none, buf)
  else
    let second := buf.getD 1 0
    let masked := (second &&& 0x80) != 0
    if !masked && server then (.err .UnmaskedFrame, buf)
    else if masked && !server then (.err .MaskedFrame, buf)
    else
      match resolvedLength buf with
      | Option.none => (.none, buf)
      | Option.some (length, idx0) => parseMask buf server (buf.getD 0 0) length idx0

/-- Model of `Frame::message` (`frame.rs` lines 164-220): serialize one frame.  The
randomly drawn mask key of the source is passed explicitly so the function
is deterministic.  This definition records the byte sequence the writes
produce; the capacity accounting of the unchecked writes in the masked
path is modelled separately by `messageCapacity` / `messageHeaderLen`
below. -/
def message (payload : List Nat) (code : OpCode) (finished genmask : Bool)
    (mask : Fin 4 → Nat) : List Nat :=
  let plen := payload.length
  let one : Nat := if finished then 0x80 ||| code.toU8 else code.toU8
  let two : Nat := if genmask then 0x80 else 0
  let header : List Nat :=
    if plen < 126 then [one, two ||| plen % 256]
    else if plen ≤ 65535 then [one, two ||| 126] ++ beBytes 2 plen
    else [one, two ||| 127] ++ beBytes 8 plen
  if genmask then
    header ++ [mask 0, mask 1, mask 2, mask 3] ++ apply_mask payload mask
  else
    header ++ payload

/-- Model of `Frame::close` (`frame.rs` lines 32-48): build the Close payload
(2 big-endian close-code bytes then the reason bytes, or nothing for
`Empty`) and serialize it through `message`. -/
def close (code : CloseCode) (reason : List Nat) (genmask : Bool)
    (mask : Fin 4 → Nat) : List Nat :=
  let raw := beBytes 2 code.toU16
  let payload : List Nat :=
    match code with
    | .Empty => []
    | _ => raw ++ reason
  message payload .Close true genmask mask

/-- The capacity `Frame::message` requests from `BytesMut::with_capacity`
(`frame.rs` lines 181, 185, 194): `p_len + 2`, `p_len + 4` or `p_len + 8`
where `p_len` is the payload length plus 4 when a mask is generated. -/
def messageCapacity (plen : Nat) (genmask : Bool) : Nat :=
  let p_len := if genmask then plen + 4 else plen
  if plen < 126 then p_len + 2
  else if plen ≤ 65535 then p_len + 4
  else p_len + 8

/-- The number of header bytes `Frame::message` writes before the payload:
2 header bytes plus 2 or 8 extended-length bytes. -/
def messageHeaderLen (plen : Nat) : Nat :=
  if plen < 126 then 2 else if plen ≤ 65535 then 4 else 10

/-- In-bounds condition for the unchecked writes of the masked encode path
(`frame.rs` lines 204-214): after the header, the code copies the 4 mask
bytes and the `plen` payload bytes into the spare capacity, so it needs
`headerLen + plen + 4 ≤ capacity`. -/
def maskedEncodeInBounds (plen : Nat) : Prop :=
  messageHeaderLen plen + plen + 4 ≤ messageCapacity plen true

instance (plen : Nat) : Decidable (maskedEncodeInBounds plen) := by
  unfold maskedEncodeInBounds
  infer_instance

/-- Size in bytes of the single wire frame at the front of `buf` (header,
extended length, mask key if `server`, payload), per the wire layout table
of §6 of the spec; meaningful once `resolvedLength` succeeds. -/
def frameSize (buf : List Nat) (server : Bool) : Nat :=
  match resolvedLength buf with
  | Option.none => 0
  | Option.some (length, idx0) => idx0 + (if server then 4 else 0) + length

/-! Sanity checks: the unit tests of `frame.rs`. -/

example : parse [1, 1] false = (.none, [1, 1]) := by decide
example : parse [1, 1, 49] false =
    (.frame ⟨false, false, false, false, .Text, [49]⟩, []) := by decide
example : parse [1, 0] false =
    (.frame ⟨false, false, false, false, .Text, []⟩, []) := by decide
example : parse [1, 126] false = (.none, [1, 126]) := by decide
example : parse [1, 126, 0, 4, 49, 50, 51, 52] false =
    (.frame ⟨false, false, false, false, .Text, [49, 50, 51, 52]⟩, []) := by decide
example : parse [1, 127] false = (.none, [1, 127]) := by decide
example : parse [1, 127, 0, 0, 0, 0, 0, 0, 0, 4, 49, 50, 51, 52] false =
    (.frame ⟨false, false, false, false, .Text, [49, 50, 51, 52]⟩, []) := by decide
example : (parse [1, 129, 48, 48, 48, 49, 49] false).1 = .err .MaskedFrame := by decide
example : parse [1, 129, 48, 48, 48, 49, 49] true =
    (.frame ⟨false, false, false, false, .Text, [1]⟩, []) := by decide
example : (parse [1, 1, 1] true).1 = .err .UnmaskedFrame := by decide
example : message [100, 97, 116, 97] .Ping true false (fun _ => 0) =
    [137, 4, 100, 97, 116, 97] := by decide
example : message [100, 97, 116, 97] .Pong true false (fun _ => 0) =
    [138, 4, 100, 97, 116, 97] := by decide
example : close .Normal [100, 97, 116, 97] false (fun _ => 0) =
    [136, 6, 3, 232, 100, 97, 116, 97] := by decide

/-! Bit-level helper lemmas. -/

theorem and127_of_lt {x : Nat} (h : x < 128) : x &&& 127 = x := by
  have h7 : x < 2 ^ 7 := by omega
  have hx := Nat.and_pow_two_sub_one_of_lt_two_pow h7
  norm_num at hx
  exact hx

theorem and128_of_lt {x : Nat} (h : x < 128) : x &&& 128 = 0 := by
  apply Nat.eq_of_testBit_eq
  intro i
  rw [show (128 : Nat) = 2 ^ 7 by norm_num, Nat.testBit_and]
  rcases eq_or_ne i 7 with rfl | hne
  · simp [Nat.testBit_lt_two_pow (show x < 2 ^ 7 by omega)]
  · simp [Nat.testBit_two_pow_of_ne (Ne.symm hne)]

theorem or128_eq_add {x : Nat} (h : x < 128) : 128 ||| x = 128 + x := by
  apply Nat.eq_of_testBit_eq
  intro i
  rw [show (128 : Nat) = 2 ^ 7 by norm_num, Nat.testBit_lor]
  rcases lt_trichotomy i 7 with hi | rfl | hi
  · rw [Nat.testBit_two_pow_add_gt hi, Nat.testBit_two_pow_of_ne (by omega)]
    simp
  · rw [Nat.testBit_two_pow_add_eq, Nat.testBit_two_pow_self,
      Nat.testBit_lt_two_pow (show x < 2 ^ 7 by omega)]
    simp
  · have h8 : (2 : Nat) ^ 8 ≤ 2 ^ i := Nat.pow_le_pow_right (by omega) (by omega)
    rw [Nat.testBit_lt_two_pow (show 2 ^ 7 + x < 2 ^ i by omega),
      Nat.testBit_two_pow_of_ne (by omega),
      Nat.testBit_lt_two_pow (show x < 2 ^ i by omega)]
    simp

theorem or128_and127 {x : Nat} (h : x < 128) : (128 ||| x) &&& 127 = x := by
  rw [or128_eq_add h, show (127 : Nat) = 2 ^ 7 - 1 by norm_num,
    Nat.and_pow_two_sub_one_eq_mod]
  omega

theorem or128_and128 {x : Nat} (h : x < 128) : (128 ||| x) &&& 128 = 128 := by
  rw [or128_eq_add h]
  apply Nat.eq_of_testBit_eq
  intro i
  rw [show (128 : Nat) = 2 ^ 7 by norm_num, Nat.testBit_and]
  rcases lt_trichotomy i 7 with hi | rfl | hi
  · rw [Nat.testBit_two_pow_of_ne (by omega)]
    simp
  · rw [Nat.testBit_two_pow_add_eq, Nat.testBit_two_pow_self,
      Nat.testBit_lt_two_pow (show x < 2 ^ 7 by omega)]
    rfl
  · have h8 : (2 : Nat) ^ 8 ≤ 2 ^ i := Nat.pow_le_pow_right (by omega) (by omega)
    rw [Nat.testBit_lt_two_pow (show 2 ^ 7 + x < 2 ^ i by omega),
      Nat.testBit_two_pow_of_ne (by omega)]
    simp

/-! Helper lemmas on `beBytes`, `readUintBE` and `apply_mask`. -/

theorem beBytes_length (n v : Nat) : (beBytes n v).length = n := by
  induction n generalizing v with
  | zero => rfl
  | succ n ih => simp [beBytes, ih]

theorem foldl_beBytes (n v acc : Nat) :
    (beBytes n v).foldl (fun a b => a * 256 + b) acc = acc * 256 ^ n + v % 256 ^ n := by
  induction n generalizing v acc with
  | zero => simp [beBytes, Nat.mod_one]
  | succ n ih =>
    rw [beBytes, List.foldl_append, ih]
    simp only [List.foldl_cons, List.foldl_nil]
    have hm : v % 256 ^ (n + 1) = v % 256 + 256 * (v / 256 % 256 ^ n) := by
      rw [pow_succ, mul_comm (256 ^ n) 256]
      exact Nat.mod_mul
    rw [hm, pow_succ]
    ring

theorem readUintBE_beBytes (n v : Nat) (rest : List Nat) :
    readUintBE n (beBytes n v ++ rest) = v % 256 ^ n := by
  rw [readUintBE, List.take_left' (beBytes_length n v), foldl_beBytes]
  simp

theorem apply_mask_length (buf : List Nat) (m : Fin 4 → Nat) :
    (apply_mask buf m).length = buf.length := by
  simp [apply_mask]

theorem apply_mask_apply_mask (buf : List Nat) (m : Fin 4 → Nat) :
    apply_mask (apply_mask buf m) m = buf := by
  apply List.ext_getElem
  · simp [apply_mask]
  · intro i h1 h2
    simp [apply_mask, Nat.xor_assoc]

/-! Header-byte facts for encoded frames. -/

theorem headerByte_and128 (o : OpCode) (f : Bool) :
    (((if f then 128 ||| o.toU8 else o.toU8) &&& 128) != 0) = f := by
  cases o <;> cases f <;> decide

theorem headerByte_and64 (o : OpCode) (f : Bool) :
    (if f then 128 ||| o.toU8 else o.toU8) &&& 64 = 0 := by
  cases o <;> cases f <;> decide

theorem headerByte_and32 (o : OpCode) (f : Bool) :
    (if f then 128 ||| o.toU8 else o.toU8) &&& 32 = 0 := by
  cases o <;> cases f <;> decide

theorem headerByte_and16 (o : OpCode) (f : Bool) :
    (if f then 128 ||| o.toU8 else o.toU8) &&& 16 = 0 := by
  cases o <;> cases f <;> decide

theorem headerByte_and15 (o : OpCode) (f : Bool) :
    (if f then 128 ||| o.toU8 else o.toU8) &&& 15 = o.toU8 := by
  cases o <;> cases f <;> decide

theorem fromU8_toU8 {o : OpCode} (ho : o ≠ OpCode.Bad) : OpCode.fromU8 o.toU8 = o := by
  cases o <;> first | rfl | exact absurd rfl ho

/-! Characterization lemmas for the decoder stages. -/

theorem resolvedLength_small {buf : List Nat} (h : buf.getD 1 0 &&& 127 < 126) :
    resolvedLength buf = Option.some (buf.getD 1 0 &&& 127, 2) := by
  unfold resolvedLength
  rw [if_neg (by omega), if_neg (by omega)]

theorem resolvedLength_ext2 {buf : List Nat} (h : buf.getD 1 0 &&& 127 = 126)
    (hlen : 4 ≤ buf.length) :
    resolvedLength buf = Option.some (readUintBE 2 (buf.drop 2), 4) := by
  unfold resolvedLength
  rw [if_pos h, if_neg (by omega)]

theorem resolvedLength_ext2_none {buf : List Nat} (h : buf.getD 1 0 &&& 127 = 126)
    (hlen : buf.length < 4) :
    resolvedLength buf = Option.none := by
  unfold resolvedLength
  rw [if_pos h, if_pos (by omega)]

theorem resolvedLength_ext8 {buf : List Nat} (h : buf.getD 1 0 &&& 127 = 127)
    (hlen : 10 ≤ buf.length) :
    resolvedLength buf = Option.some (readUintBE 8 (buf.drop 2), 10) := by
  unfold resolvedLength
  rw [if_neg (by omega), if_pos h, if_neg (by omega)]

theorem resolvedLength_ext8_none {buf : List Nat} (h : buf.getD 1 0 &&& 127 = 127)
    (hlen : buf.length < 10) :
    resolvedLength buf = Option.none := by
  unfold resolvedLength
  rw [if_neg (by omega), if_pos h, if_pos (by omega)]

theorem resolvedLength_idx_le {buf : List Nat} {L i : Nat} (h2 : 2 ≤ buf.length)
    (h : resolvedLength buf = Option.some (L, i)) : i ≤ buf.length ∧ 2 ≤ i := by
  simp only [resolvedLength] at h
  split_ifs at h with hc1 hc2 hc3 hc4 <;>
    simp only [Option.some.injEq, Prod.mk.injEq] at h <;> omega

/-- With at least the two header bytes present and the mask bit agreeing
with the role, `parse` goes past the role check into the length and mask
stages. -/
theorem parse_eq_of_mask {b0 b1 : Nat} {t : List Nat} {server : Bool}
    (h : ((b1 &&& 128) != 0) = server) :
    parse (b0 :: b1 :: t) server =
      match resolvedLength (b0 :: b1 :: t) with
      | Option.none => (.none, b0 :: b1 :: t)
      | Option.some (length, idx0) =>
          parseMask (b0 :: b1 :: t) server b0 length idx0 := by
  unfold parse
  rw [if_neg (by simp)]
  simp only [List.getD_cons_zero, List.getD_cons_succ, h]
  cases server <;> simp

theorem parse_unmasked_err {b0 b1 : Nat} {t : List Nat} (h : b1 &&& 128 = 0) :
    parse (b0 :: b1 :: t) true = (.err .UnmaskedFrame, b0 :: b1 :: t) := by
  unfold parse
  rw [if_neg (by simp)]
  simp [List.getD_cons_succ, h]

theorem parse_masked_err {b0 b1 : Nat} {t : List Nat} (h : b1 &&& 128 ≠ 0) :
    parse (b0 :: b1 :: t) false = (.err .MaskedFrame, b0 :: b1 :: t) := by
  unfold parse
  rw [if_neg (by simp)]
  simp [List.getD_cons_succ, h]

theorem parseMask_client (buf : List Nat) (first length idx0 : Nat) :
    parseMask buf false first length idx0 = parseBody buf first length idx0 Option.none := rfl

theorem parseMask_server (buf : List Nat) (first length idx0 : Nat)
    (h : ¬(buf.length - idx0 < 4)) :
    parseMask buf true first length idx0 =
      parseBody buf first length (idx0 + 4)
        (Option.some fun j => (buf.drop idx0).getD j 0) := by
  unfold parseMask
  rw [if_pos rfl, if_neg h]

/-- Evaluation of `parseBody` on a buffer that contains the full payload, with the
removed-prefix views supplied as equations. -/
theorem parseBody_eq (buf : List Nat) (first length idx : Nat)
    (mask : Option (Fin 4 → Nat)) (d r : List Nat)
    (h : ¬(buf.length - idx < length))
    (hd : (buf.drop idx).take length = d) (hr : (buf.drop idx).drop length = r) :
    parseBody buf first length idx mask =
      if OpCode.fromU8 (first &&& 15) = .Bad then
        (.err (.InvalidOpcode (first &&& 15)), r)
      else if (OpCode.fromU8 (first &&& 15) = .Ping ∨ OpCode.fromU8 (first &&& 15) = .Pong) ∧
          125 < length then
        (.err (.OversizedControlFrame length), r)
      else if OpCode.fromU8 (first &&& 15) = .Close ∧ 125 < length then
        (.frame Frame.default, r)
      else
        (.frame { finished := (first &&& 128) != 0, rsv1 := (first &&& 64) != 0,
                  rsv2 := (first &&& 32) != 0, rsv3 := (first &&& 16) != 0,
                  opcode := OpCode.fromU8 (first &&& 15),
                  payload := match mask with
                    | Option.some m => apply_mask d m
                    | Option.none => d }, r) := by
  subst hd hr
  unfold parseBody
  rw [if_neg h]

/-- Parsing a complete unmasked frame, decomposed as header byte, length
byte, extended-length bytes and payload, with role `client`. -/
theorem parse_shape_client (b0 lenb : Nat) (ext p : List Nat)
    (hlenb : lenb < 128)
    (hres : resolvedLength (b0 :: lenb :: (ext ++ p)) =
      Option.some (p.length, 2 + ext.length)) :
    parse (b0 :: lenb :: (ext ++ p)) false =
      if OpCode.fromU8 (b0 &&& 15) = .Bad then
        (.err (.InvalidOpcode (b0 &&& 15)), [])
      else if (OpCode.fromU8 (b0 &&& 15) = .Ping ∨ OpCode.fromU8 (b0 &&& 15) = .Pong) ∧
          125 < p.length then
        (.err (.OversizedControlFrame p.length), [])
      else if OpCode.fromU8 (b0 &&& 15) = .Close ∧ 125 < p.length then
        (.frame Frame.default, [])
      else
        (.frame { finished := (b0 &&& 128) != 0, rsv1 := (b0 &&& 64) != 0,
                  rsv2 := (b0 &&& 32) != 0, rsv3 := (b0 &&& 16) != 0,
                  opcode := OpCode.fromU8 (b0 &&& 15), payload := p }, []) := by
  have hlen2 : (b0 :: lenb :: (ext ++ p)).length = 2 + ext.length + p.length := by
    simp only [List.length_cons, List.length_append]
    omega
  have hdrop : (b0 :: lenb :: (ext ++ p)).drop (2 + ext.length) = p := by
    have hsplit : b0 :: lenb :: (ext ++ p) = ([b0, lenb] ++ ext) ++ p := by simp
    rw [hsplit]
    refine List.drop_left' ?_
    simp only [List.length_append, List.length_cons, List.length_nil]
    try omega
  rw [parse_eq_of_mask (by simp [and128_of_lt hlenb]), hres]
  dsimp only
  rw [parseMask_client,
    parseBody_eq _ _ _ _ _ p [] (by omega) (by rw [hdrop, List.take_length])
      (by rw [hdrop, List.drop_length])]

/-- Parsing a complete masked frame, decomposed as header byte, length
byte (with the mask bit), extended-length bytes, the 4 mask-key bytes and
the masked payload, with role `server`. -/
theorem parse_shape_server (b0 lenb : Nat) (ext p : List Nat) (m : Fin 4 → Nat)
    (hlenb : lenb < 128)
    (hres : resolvedLength
        (b0 :: (128 ||| lenb) :: (ext ++ ([m 0, m 1, m 2, m 3] ++ apply_mask p m))) =
      Option.some (p.length, 2 + ext.length)) :
    parse (b0 :: (128 ||| lenb) :: (ext ++ ([m 0, m 1, m 2, m 3] ++ apply_mask p m))) true =
      if OpCode.fromU8 (b0 &&& 15) = .Bad then
        (.err (.InvalidOpcode (b0 &&& 15)), [])
      else if (OpCode.fromU8 (b0 &&& 15) = .Ping ∨ OpCode.fromU8 (b0 &&& 15) = .Pong) ∧
          125 < p.length then
        (.err (.OversizedControlFrame p.length), [])
      else if OpCode.fromU8 (b0 &&& 15) = .Close ∧ 125 < p.length then
        (.frame Frame.default, [])
      else
        (.frame { finished := (b0 &&& 128) != 0, rsv1 := (b0 &&& 64) != 0,
                  rsv2 := (b0 &&& 32) != 0, rsv3 := (b0 &&& 16) != 0,
                  opcode := OpCode.fromU8 (b0 &&& 15), payload := p }, []) := by
  have hplen : (apply_mask p m).length = p.length := apply_mask_length p m
  have hlen2 :
      (b0 :: (128 ||| lenb) :: (ext ++ ([m 0, m 1, m 2, m 3] ++ apply_mask p m))).length =
        2 + ext.length + 4 + p.length := by
    simp only [List.length_cons, List.length_append, List.length_nil, hplen]
    try omega
  have hdrop0 :
      (b0 :: (128 ||| lenb) :: (ext ++ ([m 0, m 1, m 2, m 3] ++ apply_mask p m))).drop
        (2 + ext.length) = [m 0, m 1, m 2, m 3] ++ apply_mask p m := by
    have hsplit : b0 :: (128 ||| lenb) :: (ext ++ ([m 0, m 1, m 2, m 3] ++ apply_mask p m)) =
        ([b0, 128 ||| lenb] ++ ext) ++ ([m 0, m 1, m 2, m 3] ++ apply_mask p m) := by simp
    rw [hsplit]
    refine List.drop_left' ?_
    simp only [List.length_append, List.length_cons, List.length_nil]
    try omega
  have hdrop1 :
      (b0 :: (128 ||| lenb) :: (ext ++ ([m 0, m 1, m 2, m 3] ++ apply_mask p m))).drop
        (2 + ext.length + 4) = apply_mask p m := by
    have hsplit : b0 :: (128 ||| lenb) :: (ext ++ ([m 0, m 1, m 2, m 3] ++ apply_mask p m)) =
        (([b0, 128 ||| lenb] ++ ext) ++ [m 0, m 1, m 2, m 3]) ++ apply_mask p m := by simp
    rw [hsplit]
    refine List.drop_left' ?_
    simp only [List.length_append, List.length_cons, List.length_nil]
    try omega
  have hmfn : (fun j : Fin 4 => ([m 0, m 1, m 2, m 3] ++ apply_mask p m).getD (↑j) 0) = m := by
    funext j
    fin_cases j <;> rfl
  rw [parse_eq_of_mask (by simp [or128_and128 hlenb]), hres]
  dsimp only
  rw [parseMask_server _ _ _ _ (by omega),
    parseBody_eq _ _ _ _ _ (apply_mask p m) [] (by omega)
      (by rw [hdrop1, ← hplen, List.take_length])
      (by rw [hdrop1, ← hplen, List.drop_length])]
  dsimp only
  rw [hdrop0, hmfn, apply_mask_apply_mask]

theorem drop2_cons (a b : Nat) (t : List Nat) : (a :: b :: t).drop 2 = t := rfl

/-- Decoding an encoded frame: `parse ∘ message` for any opcode other than
the internal `Bad` sentinel, any payload (shorter than `2^64`, the `usize`
bound), any role (`genmask = true` frames are parsed as a server, unmasked
ones as a client), any mask key. -/
theorem parse_message (p : List Nat) (o : OpCode) (f gm : Bool) (m : Fin 4 → Nat)
    (ho : o ≠ OpCode.Bad) (h64 : p.length < 2 ^ 64) :
    parse (message p o f gm m) gm =
      if (o = OpCode.Ping ∨ o = OpCode.Pong) ∧ 125 < p.length then
        (.err (.OversizedControlFrame p.length), [])
      else if o = OpCode.Close ∧ 125 < p.length then
        (.frame Frame.default, [])
      else
        (.frame { finished := f, rsv1 := false, rsv2 := false, rsv3 := false,
                  opcode := o, payload := p }, []) := by
  have hb15 := headerByte_and15 o f
  have hb128 := headerByte_and128 o f
  have hb64 := headerByte_and64 o f
  have hb32 := headerByte_and32 o f
  have hb16 := headerByte_and16 o f
  by_cases hA : p.length < 126
  · cases gm with
    | false =>
      have hmsg : message p o f false m =
          (if f then 128 ||| o.toU8 else o.toU8) :: p.length :: (([] : List Nat) ++ p) := by
        simp [message, hA, Nat.mod_eq_of_lt (show p.length < 256 by omega)]
      rw [hmsg, parse_shape_client _ _ _ _ (by omega)
        (by rw [resolvedLength_small (by simp [List.getD_cons_succ,
              and127_of_lt (show p.length < 128 by omega)]; omega)]
            simp [List.getD_cons_succ, and127_of_lt (show p.length < 128 by omega)])]
      simp [hb15, fromU8_toU8 ho, hb128, hb64, hb32, hb16, ho]
    | true =>
      have hmsg : message p o f true m =
          (if f then 128 ||| o.toU8 else o.toU8) :: (128 ||| p.length) ::
            (([] : List Nat) ++ ([m 0, m 1, m 2, m 3] ++ apply_mask p m)) := by
        simp [message, hA, Nat.mod_eq_of_lt (show p.length < 256 by omega)]
      rw [hmsg, parse_shape_server _ _ _ _ _ (by omega)
        (by rw [resolvedLength_small (by simp [List.getD_cons_succ,
              or128_and127 (show p.length < 128 by omega)]; omega)]
            simp [List.getD_cons_succ, or128_and127 (show p.length < 128 by omega)])]
      simp [hb15, fromU8_toU8 ho, hb128, hb64, hb32, hb16, ho]
  · by_cases hB : p.length ≤ 65535
    · cases gm with
      | false =>
        have hmsg : message p o f false m =
            (if f then 128 ||| o.toU8 else o.toU8) :: 126 :: (beBytes 2 p.length ++ p) := by
          simp [message, hA, hB]
        have hread : readUintBE 2 (beBytes 2 p.length ++ p) = p.length := by
          rw [readUintBE_beBytes]
          exact Nat.mod_eq_of_lt (by norm_num; omega)
        rw [hmsg, parse_shape_client _ _ _ _ (by omega)
          (by rw [resolvedLength_ext2 (by simp [List.getD_cons_succ]; try decide)
                (by simp only [List.length_cons, List.length_append, beBytes_length]; omega),
              drop2_cons, hread, beBytes_length])]
        simp [hb15, fromU8_toU8 ho, hb128, hb64, hb32, hb16, ho]
      | true =>
        have hmsg : message p o f true m =
            (if f then 128 ||| o.toU8 else o.toU8) :: (128 ||| 126) ::
              (beBytes 2 p.length ++ ([m 0, m 1, m 2, m 3] ++ apply_mask p m)) := by
          simp [message, hA, hB]
        have hread : readUintBE 2
            (beBytes 2 p.length ++ ([m 0, m 1, m 2, m 3] ++ apply_mask p m)) = p.length := by
          rw [readUintBE_beBytes]
          exact Nat.mod_eq_of_lt (by norm_num; omega)
        rw [hmsg, parse_shape_server _ _ _ _ _ (by omega)
          (by rw [resolvedLength_ext2 (by simp [List.getD_cons_succ]; try decide)
                (by simp only [List.length_cons, List.length_append, List.length_nil,
                      beBytes_length, apply_mask_length]; omega),
              drop2_cons, hread, beBytes_length])]
        simp [hb15, fromU8_toU8 ho, hb128, hb64, hb32, hb16, ho]
    · cases gm with
      | false =>
        have hmsg : message p o f false m =
            (if f then 128 ||| o.toU8 else o.toU8) :: 127 :: (beBytes 8 p.length ++ p) := by
          simp [message, hA, hB]
        have hread : readUintBE 8 (beBytes 8 p.length ++ p) = p.length := by
          rw [readUintBE_beBytes]
          exact Nat.mod_eq_of_lt (by norm_num; omega)
        rw [hmsg, parse_shape_client _ _ _ _ (by omega)
          (by rw [resolvedLength_ext8 (by simp [List.getD_cons_succ]; try decide)
                (by simp only [List.length_cons, List.length_append, beBytes_length]; omega),
              drop2_cons, hread, beBytes_length])]
        simp [hb15, fromU8_toU8 ho, hb128, hb64, hb32, hb16, ho]
      | true =>
        have hmsg : message p o f true m =
            (if f then 128 ||| o.toU8 else o.toU8) :: (128 ||| 127) ::
              (beBytes 8 p.length ++ ([m 0, m 1, m 2, m 3] ++ apply_mask p m)) := by
          simp [message, hA, hB]
        have hread : readUintBE 8
            (beBytes 8 p.length ++ ([m 0, m 1, m 2, m 3] ++ apply_mask p m)) = p.length := by
          rw [readUintBE_beBytes]
          exact Nat.mod_eq_of_lt (by norm_num; omega)
        rw [hmsg, parse_shape_server _ _ _ _ _ (by omega)
          (by rw [resolvedLength_ext8 (by simp [List.getD_cons_succ]; try decide)
                (by simp only [List.length_cons, List.length_append, List.length_nil,
                      beBytes_length, apply_mask_length]; omega),
              drop2_cons, hread, beBytes_length])]
        simp [hb15, fromU8_toU8 ho, hb128, hb64, hb32, hb16, ho]

/-- Buffer effect and outcome shape of `parseBody`: either need-more-data
with the buffer untouched, or exactly the `idx + length` frame bytes are
consumed and the outcome is a frame, an invalid-opcode error or an
oversized-control-frame error. -/
theorem parseBody_cases (buf : List Nat) (first L idx : Nat) (mask : Option (Fin 4 → Nat))
    (hidx : idx ≤ buf.length) :
    ((parseBody buf first L idx mask).1 = .none ∧ (parseBody buf first L idx mask).2 = buf) ∨
    ((parseBody buf first L idx mask).2 = buf.drop (idx + L) ∧ idx + L ≤ buf.length ∧
      ((∃ fr, (parseBody buf first L idx mask).1 = .frame fr) ∨
       (∃ raw, (parseBody buf first L idx mask).1 = .err (.InvalidOpcode raw)) ∨
       (∃ L2, (parseBody buf first L idx mask).1 = .err (.OversizedControlFrame L2)))) := by
  unfold parseBody
  split
  · left
    exact ⟨rfl, rfl⟩
  · rename_i hcomp
    right
    refine ⟨?_, by omega, ?_⟩
    · dsimp only
      split_ifs <;> simp [List.drop_drop]
    · dsimp only
      split_ifs with h1 h2 h3
      · exact Or.inr (Or.inl ⟨_, rfl⟩)
      · exact Or.inr (Or.inr ⟨_, rfl⟩)
      · exact Or.inl ⟨_, rfl⟩
      · exact Or.inl ⟨_, rfl⟩

/-- Buffer effect and outcome shape of `parseMask` (adds the 4 mask-key
bytes to the consumed prefix when `server`). -/
theorem parseMask_cases (buf : List Nat) (server : Bool) (first L i : Nat)
    (hi : i ≤ buf.length) :
    ((parseMask buf server first L i).1 = .none ∧ (parseMask buf server first L i).2 = buf) ∨
    ((parseMask buf server first L i).2 =
        buf.drop (i + (if server then 4 else 0) + L) ∧
      i + (if server then 4 else 0) + L ≤ buf.length ∧
      ((∃ fr, (parseMask buf server first L i).1 = .frame fr) ∨
       (∃ raw, (parseMask buf server first L i).1 = .err (.InvalidOpcode raw)) ∨
       (∃ L2, (parseMask buf server first L i).1 = .err (.OversizedControlFrame L2)))) := by
  cases server with
  | false =>
    rw [parseMask_client]
    simpa using parseBody_cases buf first L i Option.none hi
  | true =>
    unfold parseMask
    rw [if_pos rfl]
    split
    · left
      exact ⟨rfl, rfl⟩
    · rename_i hshort
      have h4 : i + 4 ≤ buf.length := by omega
      simpa [Nat.add_assoc] using
        parseBody_cases buf first L (i + 4) (Option.some fun j => (buf.drop i).getD j 0) h4

/-- Global buffer effect of `parse`: on need-more-data and on the two
role/mask errors the buffer is returned untouched; in every other outcome
exactly the `frameSize` leading bytes are removed. -/
theorem parse_cases (buf : List Nat) (server : Bool) :
    (((parse buf server).1 = .none ∨ (parse buf server).1 = .err .UnmaskedFrame ∨
        (parse buf server).1 = .err .MaskedFrame) ∧ (parse buf server).2 = buf) ∨
    ((parse buf server).2 = buf.drop (frameSize buf server) ∧
      frameSize buf server ≤ buf.length ∧
      ((∃ fr, (parse buf server).1 = .frame fr) ∨
       (∃ raw, (parse buf server).1 = .err (.InvalidOpcode raw)) ∨
       (∃ L2, (parse buf server).1 = .err (.OversizedControlFrame L2)))) := by
  unfold parse
  split
  · left
    exact ⟨Or.inl rfl, rfl⟩
  · rename_i hlen2
    dsimp only
    split_ifs with hm1 hm2
    · left
      exact ⟨Or.inr (Or.inl rfl), rfl⟩
    · left
      exact ⟨Or.inr (Or.inr rfl), rfl⟩
    · rcases hres : resolvedLength buf with _ | ⟨L, i⟩
      · left
        exact ⟨Or.inl rfl, rfl⟩
      · dsimp only
        have hi := (resolvedLength_idx_le (by omega) hres).1
        have hfs : frameSize buf server = i + (if server then 4 else 0) + L := by
          unfold frameSize
          rw [hres]
        rw [hfs]
        rcases parseMask_cases buf server (buf.getD 0 0) L i hi with ⟨h1, h2⟩ | h
        · exact Or.inl ⟨Or.inl h1, h2⟩
        · exact Or.inr h

theorem parseBody_not_role_err (buf : List Nat) (first L idx : Nat)
    (mask : Option (Fin 4 → Nat)) :
    (parseBody buf first L idx mask).1 ≠ .err .UnmaskedFrame ∧
    (parseBody buf first L idx mask).1 ≠ .err .MaskedFrame := by
  unfold parseBody
  split
  · simp
  · dsimp only
    split_ifs <;> simp

theorem parseMask_not_role_err (buf : List Nat) (server : Bool) (first L i : Nat) :
    (parseMask buf server first L i).1 ≠ .err .UnmaskedFrame ∧
    (parseMask buf server first L i).1 ≠ .err .MaskedFrame := by
  unfold parseMask
  split_ifs
  · simp
  · exact parseBody_not_role_err _ _ _ _ _
  · exact parseBody_not_role_err _ _ _ _ _

theorem parseBody_frame_opcode (buf : List Nat) (first L idx : Nat)
    (mask : Option (Fin 4 → Nat)) (fr : Frame) :
    (parseBody buf first L idx mask).1 = .frame fr → fr.opcode ≠ .Bad := by
  unfold parseBody
  split
  · simp
  · dsimp only
    split_ifs with h1 h2 h3
    · simp
    · simp
    · intro h
      simp only [ParseOutcome.frame.injEq] at h
      rw [← h]
      simp [Frame.default]
    · intro h
      simp only [ParseOutcome.frame.injEq] at h
      rw [← h]
      exact h1

/-- No `Frame` value carrying the internal `Bad` opcode ever escapes
`parse`. -/
theorem parse_frame_opcode (buf : List Nat) (server : Bool) (fr : Frame) :
    (parse buf server).1 = .frame fr → fr.opcode ≠ .Bad := by
  unfold parse
  split
  · simp
  · dsimp only
    split_ifs with hm1 hm2
    · simp
    · simp
    · rcases hres : resolvedLength buf with _ | ⟨L, i⟩
      · simp
      · dsimp only
        unfold parseMask
        split_ifs
        · simp
        · exact parseBody_frame_opcode _ _ _ _ _ _
        · exact parseBody_frame_opcode _ _ _ _ _ _

/-! Claim theorems. -/

/-- C1 (counterexample): the round trip fails as stated for a control
frame with an oversized payload: a Ping frame with a 126-byte payload is
rejected by `parse` with the oversized-control-frame error instead of
being returned as a Frame value with identical fields. -/
theorem message_parse_roundtrip_cex :
    (parse (message (List.replicate 126 0) .Ping true false (fun _ => 0)) false).1 =
      .err (.OversizedControlFrame 126) ∧
    parse (message (List.replicate 126 0) .Ping true false (fun _ => 0)) false ≠
      (.frame { finished := true, rsv1 := false, rsv2 := false, rsv3 := false,
                opcode := .Ping, payload := List.replicate 126 0 }, []) := by
  constructor
  · rfl
  · intro h
    have h1 := congrArg Prod.fst h
    simp only at h1
    cases h1

/-- C1 (amended): for every payload `p` (of `usize` length), every opcode
`o` other than the internal `Bad` sentinel, and every finished flag, the
bytes of `message(p, o, f, with_mask = false)` parse with role `client`
into a Frame value with identical finished flag, opcode and payload —
provided that when `o` is a control opcode (Ping, Pong, Close) the payload
is at most 125 bytes, the limit beyond which `parse` rejects (Ping/Pong)
or normalizes (Close) the frame. -/
theorem message_parse_roundtrip (p : List Nat) (o : OpCode) (f : Bool) (m : Fin 4 → Nat)
    (ho : o ≠ OpCode.Bad) (h64 : p.length < 2 ^ 64)
    (hctl : (o = .Ping ∨ o = .Pong ∨ o = .Close) → p.length ≤ 125) :
    parse (message p o f false m) false =
      (.frame { finished := f, rsv1 := false, rsv2 := false, rsv3 := false,
                opcode := o, payload := p }, []) := by
  rw [parse_message p o f false m ho h64,
    if_neg (by rintro ⟨h1 | h1, h2⟩ <;> have := hctl (by simp [h1]) <;> omega),
    if_neg (by rintro ⟨h1, h2⟩; have := hctl (by simp [h1]); omega)]

/-- C1 witness: the round trip at a concrete Text frame. -/
theorem message_parse_roundtrip_witness :
    parse (message [49] .Text false false (fun _ => 0)) false =
      (.frame { finished := false, rsv1 := false, rsv2 := false, rsv3 := false,
                opcode := .Text, payload := [49] }, []) :=
  message_parse_roundtrip [49] .Text false (fun _ => 0) (by decide) (by decide) (by decide)

/-- C2: oversized control frames are handled asymmetrically: a complete
Ping or Pong frame with payload longer than 125 bytes fails with the
oversized-control-frame error, while a complete Close frame with payload
longer than 125 bytes parses successfully to the canonical default frame
(finished, opcode Close, empty payload).  Both the unmasked/client and the
masked/server direction are covered. -/
theorem oversized_control_asymmetry (p : List Nat) (f gm : Bool) (m : Fin 4 → Nat)
    (hov : 125 < p.length) (h64 : p.length < 2 ^ 64) :
    parse (message p .Ping f gm m) gm = (.err (.OversizedControlFrame p.length), []) ∧
    parse (message p .Pong f gm m) gm = (.err (.OversizedControlFrame p.length), []) ∧
    parse (message p .Close f gm m) gm = (.frame Frame.default, []) ∧
    Frame.default = { finished := true, rsv1 := false, rsv2 := false, rsv3 := false,
                      opcode := .Close, payload := [] } := by
  refine ⟨?_, ?_, ?_, rfl⟩ <;>
    rw [parse_message _ _ _ _ _ (by simp) h64] <;>
    simp [hov]

/-- C2 witness: a 130-byte Ping is rejected, a 130-byte Close becomes the
default frame. -/
theorem oversized_control_asymmetry_witness :
    parse (message (List.replicate 130 7) .Ping true false (fun _ => 0)) false =
      (.err (.OversizedControlFrame 130), []) ∧
    parse (message (List.replicate 130 7) .Close true false (fun _ => 0)) false =
      (.frame Frame.default, []) := by
  have h := oversized_control_asymmetry (List.replicate 130 7) true false (fun _ => 0)
    (by simp) (by simp)
  exact ⟨by simpa using h.1, by simpa using h.2.2.1⟩

/-- C3 (code bug): the unchecked writes of the masked encode path fit in the
requested capacity up to payload length 65535, but at payload length 65536
the code requests `p_len + 8 = 65548` bytes of capacity while the masked
path writes `10 + 65536 + 4 = 65550` bytes (10 header bytes, the 4-byte
mask key, the masked payload), overrunning the allocation by 2 bytes. -/
theorem masked_encode_capacity_bug :
    maskedEncodeInBounds 65535 ∧
    ¬ maskedEncodeInBounds 65536 ∧
    messageCapacity 65536 true = 65548 ∧
    messageHeaderLen 65536 + 65536 + 4 = 65550 := by
  refine ⟨by decide, by decide, by decide, by decide⟩

/-- C4: buffer discipline of `parse`.  When it returns the need-more-data
outcome the buffer is byte-for-byte the buffer passed in; when it returns
a frame, exactly the `frameSize` bytes of that one frame (header, any
extended-length bytes, any mask key, and the payload) are removed from the
front and the trailing bytes remain in place. -/
theorem parse_buffer_discipline (buf : List Nat) (server : Bool) :
    ((parse buf server).1 = .none → (parse buf server).2 = buf) ∧
    (∀ fr, (parse buf server).1 = .frame fr →
      frameSize buf server ≤ buf.length ∧
      (parse buf server).2 = buf.drop (frameSize buf server) ∧
      buf = buf.take (frameSize buf server) ++ (parse buf server).2) := by
  rcases parse_cases buf server with ⟨h1, h2⟩ | ⟨h1, h2, h3⟩
  · refine ⟨fun _ => h2, fun fr hfr => ?_⟩
    rcases h1 with h | h | h <;> rw [hfr] at h <;> cases h
  · constructor
    · intro hn
      rcases h3 with ⟨fr, h⟩ | ⟨raw, h⟩ | ⟨L2, h⟩ <;> rw [hn] at h <;> cases h
    · intro fr hfr
      refine ⟨h2, h1, ?_⟩
      rw [h1, List.take_append_drop]

/-- C4 witness: need-more-data leaves a two-byte buffer alone; parsing a
3-byte Text frame with one trailing byte removes exactly the 3 frame
bytes. -/
theorem parse_buffer_discipline_witness :
    (parse [1, 1] false).2 = [1, 1] ∧
    (parse [1, 1, 49, 99] false).2 = List.drop (frameSize [1, 1, 49, 99] false) [1, 1, 49, 99] := by
  constructor
  · exact (parse_buffer_discipline [1, 1] false).1 (by decide)
  · exact ((parse_buffer_discipline [1, 1, 49, 99] false).2
      { finished := false, rsv1 := false, rsv2 := false, rsv3 := false,
        opcode := .Text, payload := [49] } (by decide)).2.1

/-- C5: role enforcement of the mask bit.  On any buffer holding at least
the two header bytes, `parse` with role `server` fails with the
unmasked-frame error exactly when bit 7 of byte 1 is clear, and `parse`
with role `client` fails with the masked-frame error exactly when that bit
is set. -/
theorem parse_role_mask_enforcement (b0 b1 : Nat) (t : List Nat) :
    ((parse (b0 :: b1 :: t) true).1 = .err .UnmaskedFrame ↔ b1 &&& 128 = 0) ∧
    ((parse (b0 :: b1 :: t) false).1 = .err .MaskedFrame ↔ b1 &&& 128 ≠ 0) := by
  constructor
  · constructor
    · intro h
      by_contra hbit
      rw [@parse_eq_of_mask b0 b1 t true (by simp [hbit])] at h
      rcases hres : resolvedLength (b0 :: b1 :: t) with _ | ⟨L, i⟩ <;> rw [hres] at h
      · cases h
      · exact (parseMask_not_role_err _ _ _ _ _).1 h
    · intro hbit
      rw [parse_unmasked_err hbit]
  · constructor
    · intro h
      by_contra hbit
      rw [@parse_eq_of_mask b0 b1 t false (by simp [hbit])] at h
      rcases hres : resolvedLength (b0 :: b1 :: t) with _ | ⟨L, i⟩ <;> rw [hres] at h
      · cases h
      · exact (parseMask_not_role_err _ _ _ _ _).2 h
    · intro hbit
      rw [parse_masked_err hbit]

/-- C5 witness: an unmasked Text frame is rejected by a server and a
masked one is rejected by a client, at concrete buffers. -/
theorem parse_role_mask_enforcement_witness :
    (parse [1, 1, 1] true).1 = .err .UnmaskedFrame ∧
    (parse [1, 129, 48, 48, 48, 49, 49] false).1 = .err .MaskedFrame := by
  constructor
  · exact (parse_role_mask_enforcement 1 1 [1]).1.2 (by decide)
  · exact (parse_role_mask_enforcement 1 129 [48, 48, 48, 49, 49]).2.2 (by decide)

/-- C6: payload-length resolution.  A base length below 126 in the low 7
bits of byte 1 is the payload length directly; base length 126 reads the
next 2 bytes as a big-endian unsigned 16-bit length; base length 127 reads
the next 8 bytes as a big-endian unsigned 64-bit length; and while the
required extension bytes are missing `parse` returns the need-more-data
outcome (buffer untouched) rather than an error. -/
theorem parse_length_resolution (b0 b1 : Nat) (rest : List Nat) (server : Bool)
    (hmask : ((b1 &&& 128) != 0) = server) :
    (b1 &&& 127 < 126 →
      resolvedLength (b0 :: b1 :: rest) = Option.some (b1 &&& 127, 2)) ∧
    (b1 &&& 127 = 126 →
      (rest.length < 2 → parse (b0 :: b1 :: rest) server = (.none, b0 :: b1 :: rest)) ∧
      (∀ e0 e1 t, rest = e0 :: e1 :: t →
        resolvedLength (b0 :: b1 :: rest) = Option.some (e0 * 256 + e1, 4))) ∧
    (b1 &&& 127 = 127 →
      (rest.length < 8 → parse (b0 :: b1 :: rest) server = (.none, b0 :: b1 :: rest)) ∧
      (∀ e0 e1 e2 e3 e4 e5 e6 e7 t,
        rest = e0 :: e1 :: e2 :: e3 :: e4 :: e5 :: e6 :: e7 :: t →
        resolvedLength (b0 :: b1 :: rest) = Option.some
          (e0 * 256 ^ 7 + e1 * 256 ^ 6 + e2 * 256 ^ 5 + e3 * 256 ^ 4 +
            e4 * 256 ^ 3 + e5 * 256 ^ 2 + e6 * 256 + e7, 10))) := by
  refine ⟨?_, fun h126 => ⟨?_, ?_⟩, fun h127 => ⟨?_, ?_⟩⟩
  · intro hlt
    rw [resolvedLength_small (by simpa using hlt)]
    simp
  · intro hshort
    rw [parse_eq_of_mask hmask,
      resolvedLength_ext2_none (by simpa using h126) (by simp; omega)]
  · intro e0 e1 t ht
    subst ht
    rw [resolvedLength_ext2 (by simpa using h126) (by simp)]
    simp [readUintBE, drop2_cons]
    try ring
  · intro hshort
    rw [parse_eq_of_mask hmask,
      resolvedLength_ext8_none (by simpa using h127) (by simp; omega)]
  · intro e0 e1 e2 e3 e4 e5 e6 e7 t ht
    subst ht
    rw [resolvedLength_ext8 (by simpa using h127) (by simp)]
    simp [readUintBE, drop2_cons]
    try ring

/-- C6 witness: the example of the spec — base-length marker 126 with no
extension bytes yields need-more-data; extension bytes `0, 4` resolve to
payload length 4. -/
theorem parse_length_resolution_witness :
    parse [1, 126] false = (.none, [1, 126]) ∧
    resolvedLength [1, 126, 0, 4, 49, 50, 51, 52] = Option.some (4, 4) ∧
    parse [1, 126, 0, 4, 49, 50, 51, 52] false =
      (.frame { finished := false, rsv1 := false, rsv2 := false, rsv3 := false,
                opcode := .Text, payload := [49, 50, 51, 52] }, []) := by
  refine ⟨?_, ?_, by decide⟩
  · exact ((parse_length_resolution 1 126 [] false (by decide)).2.1 (by decide)).1 (by decide)
  · have h := ((parse_length_resolution 1 126 [0, 4, 49, 50, 51, 52] false
      (by decide)).2.1 (by decide)).2 0 4 [49, 50, 51, 52] rfl
    simpa using h

/-- C7: opcode validation.  A complete, role-consistent frame whose 4-bit
opcode field decodes to the internal `Bad` sentinel (i.e. is outside
`{0,1,2,8,9,10}`) makes `parse` fail with the invalid-opcode error
carrying the raw 4-bit value; and no Frame value returned by `parse` ever
carries the `Bad` opcode. -/
theorem parse_opcode_validation :
    (∀ (b0 b1 : Nat) (t : List Nat) (server : Bool) (L i : Nat),
      ((b1 &&& 128) != 0) = server →
      OpCode.fromU8 (b0 &&& 15) = .Bad →
      resolvedLength (b0 :: b1 :: t) = Option.some (L, i) →
      i + (if server then 4 else 0) + L ≤ (b0 :: b1 :: t).length →
      (parse (b0 :: b1 :: t) server).1 = .err (.InvalidOpcode (b0 &&& 15))) ∧
    (∀ (buf : List Nat) (server : Bool) (fr : Frame),
      (parse buf server).1 = .frame fr → fr.opcode ≠ .Bad) := by
  constructor
  · intro b0 b1 t server L i hmask hbad hres hcomp
    have hile := resolvedLength_idx_le (by simp) hres
    rw [parse_eq_of_mask hmask, hres]
    dsimp only
    cases server with
    | false =>
      rw [parseMask_client,
        parseBody_eq _ _ _ _ _ _ _ (by simp at hcomp ⊢; omega) rfl rfl,
        if_pos (by simpa using hbad)]
    | true =>
      rw [parseMask_server _ _ _ _ (by simp at hcomp ⊢; omega),
        parseBody_eq _ _ _ _ _ _ _ (by simp at hcomp ⊢; omega) rfl rfl,
        if_pos (by simpa using hbad)]
  · exact parse_frame_opcode

/-- C7 witness: opcode nibble 3 is rejected with `InvalidOpcode 3`; the
frame parsed from a valid Text frame does not carry `Bad`. -/
theorem parse_opcode_validation_witness :
    (parse [3, 1, 49] false).1 = .err (.InvalidOpcode 3) ∧
    ({ finished := false, rsv1 := false, rsv2 := false, rsv3 := false,
       opcode := .Text, payload := [49] } : Frame).opcode ≠ .Bad := by
  constructor
  · have h := parse_opcode_validation.1 3 1 [49] false 1 2
      (by decide) (by decide) (by decide) (by decide)
    simpa using h
  · exact parse_opcode_validation.2 [1, 1, 49] false _ (by decide)

/-- C8: `close` builds its payload as the 2 big-endian bytes of the
numeric close code followed by the raw reason bytes — except for the
`Empty` sentinel, whose payload is empty even when the reason is not — and
hands that payload to `message` with opcode Close and finished set; in
particular `close(Normal, "data", with_mask = false)` is exactly
`[136, 6, 3, 232, 100, 97, 116, 97]` (payload the bytes of "data"). -/
theorem close_payload_layout (code : CloseCode) (reason : List Nat) (gm : Bool)
    (m : Fin 4 → Nat) :
    close code reason gm m =
      message (if code = .Empty then [] else beBytes 2 code.toU16 ++ reason)
        .Close true gm m ∧
    close .Normal [100, 97, 116, 97] false m = [136, 6, 3, 232, 100, 97, 116, 97] := by
  constructor
  · cases code <;> rfl
  · rfl

/-- C9: the unmasked `message` layout: byte 0 is
`(finished ? 0x80 : 0) ||| opcode`, then the length field per the 126/127
threshold rules, then the payload unmodified; in particular
`message("data", Ping, true, false)` is exactly `[137, 4, 100, 97, 116, 97]`. -/
theorem message_unmasked_layout (p : List Nat) (o : OpCode) (f : Bool) (m : Fin 4 → Nat)
    (_ho : o ≠ OpCode.Bad) :
    message p o f false m =
      ((if f then 128 else 0) ||| o.toU8) ::
        ((if p.length < 126 then [p.length]
          else if p.length ≤ 65535 then 126 :: beBytes 2 p.length
          else 127 :: beBytes 8 p.length) ++ p) ∧
    message [100, 97, 116, 97] .Ping true false m = [137, 4, 100, 97, 116, 97] := by
  refine ⟨?_, rfl⟩
  by_cases hA : p.length < 126
  · cases f <;>
      simp [message, hA, Nat.mod_eq_of_lt (show p.length < 256 by omega)]
  · by_cases hB : p.length ≤ 65535 <;> cases f <;> simp [message, hA, hB]

/-- C9 witness: the Ping example at a concrete mask argument. -/
theorem message_unmasked_layout_witness :
    message [100, 97, 116, 97] .Ping true false (fun _ => 0) =
      [137, 4, 100, 97, 116, 97] :=
  (message_unmasked_layout [100, 97, 116, 97] .Ping true (fun _ => 0) (by decide)).2

/-- C10: fatal parse errors are not uniformly atomic.  A mask/role
mismatch error leaves the buffer completely unchanged, while the
invalid-opcode and oversized-control-frame errors are raised only after
the whole frame (`frameSize` bytes: header, extension bytes, mask key and
payload) has been removed from the front of the buffer. -/
theorem parse_error_atomicity (buf : List Nat) (server : Bool) :
    ((parse buf server).1 = .err .UnmaskedFrame ∨ (parse buf server).1 = .err .MaskedFrame →
      (parse buf server).2 = buf) ∧
    (∀ raw, (parse buf server).1 = .err (.InvalidOpcode raw) →
      (parse buf server).2 = buf.drop (frameSize buf server) ∧
      frameSize buf server ≤ buf.length) ∧
    (∀ L, (parse buf server).1 = .err (.OversizedControlFrame L) →
      (parse buf server).2 = buf.drop (frameSize buf server) ∧
      frameSize buf server ≤ buf.length) := by
  rcases parse_cases buf server with ⟨h1, h2⟩ | ⟨h1, h2, h3⟩
  · refine ⟨fun _ => h2, fun raw hraw => ?_, fun L hL => ?_⟩ <;>
      rcases h1 with h | h | h
    · rw [hraw] at h; cases h
    · rw [hraw] at h; cases h
    · rw [hraw] at h; cases h
    · rw [hL] at h; cases h
    · rw [hL] at h; cases h
    · rw [hL] at h; cases h
  · refine ⟨fun hrole => ?_, fun raw hraw => ⟨h1, h2⟩, fun L hL => ⟨h1, h2⟩⟩
    rcases h3 with ⟨fr, h⟩ | ⟨raw, h⟩ | ⟨L2, h⟩ <;>
      rcases hrole with hr | hr <;> rw [hr] at h <;> cases h

/-- C10 witness: a role/mask mismatch leaves the buffer intact; an
invalid opcode and an oversized Ping both consume the whole frame before
erroring. -/
theorem parse_error_atomicity_witness :
    (parse [1, 1, 1] true).2 = [1, 1, 1] ∧
    (parse [3, 1, 49, 99] false).2 =
      List.drop (frameSize [3, 1, 49, 99] false) [3, 1, 49, 99] ∧
    (parse (137 :: 126 :: 0 :: 130 :: List.replicate 130 7) false).2 =
      List.drop (frameSize (137 :: 126 :: 0 :: 130 :: List.replicate 130 7) false)
        (137 :: 126 :: 0 :: 130 :: List.replicate 130 7) := by
  refine ⟨?_, ?_, ?_⟩
  · exact (parse_error_atomicity [1, 1, 1] true).1 (Or.inl (by decide))
  · exact ((parse_error_atomicity [3, 1, 49, 99] false).2.1 3 (by decide)).1
  · exact ((parse_error_atomicity (137 :: 126 :: 0 :: 130 :: List.replicate 130 7)
      false).2.2 130 (by decide)).1

end WsFrame
